import Mathlib

set_option maxHeartbeats 1000000
set_option linter.unusedSectionVars false

/-
Verification of the kono API gateway core against its specification.

The Go sources are shallowly embedded: pure data flow becomes Lean
functions, Go slices become lists, Go byte strings become Lean strings,
and the opaque JSON values moved around by the aggregator become an
uninterpreted type parameter V. Concurrency primitives (mutexes, atomics)
are erased: each embedded operation is the body the source executes under
its lock.
-/

namespace Kono

/-- Model of a Go error value as observed by the gateway: the two sentinel
classifications reachable through errors.Is, plus the message text.
A Go nil error is represented as `Option.none` at use sites. -/
structure GoErr where
  isCanceled : Bool
  isDeadline : Bool
  msg : String
deriving DecidableEq, Repr

/-- UpstreamErrorKind from upstream.go (string constants in the source). -/
inductive UKind where
  | timeout
  | canceled
  | connection
  | badStatus
  | readError
  | bodyTooLarge
  | circuitOpen
  | internal
deriving DecidableEq, Repr

/-- UpstreamError from upstream.go: a kind for the aggregator plus the
wrapped original error (nil in Go becomes none). -/
structure UError where
  kind : UKind
  cause : Option GoErr
deriving DecidableEq, Repr

/-- Model of an upstream response body. The aggregator only ever asks
three questions of the raw bytes: does json.Unmarshal into map[string]any
succeed (constructor `obj`, carrying the parsed fields), otherwise what are
the bytes (constructor `raw`; the empty string models a zero-length body),
and are the bytes valid JSON at all (the `validJson` flag of `raw`: a JSON
array, string, number, bool or null literal carries true, while malformed
or empty bytes carry false; json.Marshal validates each collected
RawMessage). A Go nil body is `Option.none` at use sites. -/
inductive BodyVal (V : Type) where
  | obj (fields : List (String × V))
  | raw (bytes : String) (validJson : Bool)
deriving DecidableEq, Repr

/-- Whether json.Marshal accepts the body as a RawMessage element: bytes
that parsed as a JSON object always do, other bytes exactly when they are
valid JSON. -/
def bodyValidJson {V : Type} : BodyVal V → Bool
  | .obj _ => true
  | .raw _ v => v

/-- UpstreamResponse from upstream.go. -/
structure UResp (V : Type) where
  status : Int
  headers : List (String × String) := []
  body : Option (BodyVal V) := none
  err : Option UError := none
deriving DecidableEq, Repr

/-- ClientError is a string type in plugin.go. -/
abbrev ClientError := String

def clientErrUpstreamBodyTooLarge : ClientError := "UPSTREAM_BODY_TOO_LARGE"

def clientErrUpstreamUnavailable : ClientError := "UPSTREAM_UNAVAILABLE"

def clientErrUpstreamError : ClientError := "UPSTREAM_ERROR"

def clientErrUpstreamMalformed : ClientError := "UPSTREAM_MALFORMED"

def clientErrInternal : ClientError := "INTERNAL"

def clientErrValueConflict : ClientError := "VALUE_CONFLICT"

/-- Aggregation strategies (aggregationStrategy iota constants); `nspace`
embeds the reserved namespace strategy. -/
inductive AggregationStrategy where
  | merge
  | array
  | nspace
deriving DecidableEq, Repr

/-- Conflict policies, in the iota order of the source: overwrite, error,
first, prefer. -/
inductive ConflictPolicy where
  | overwrite
  | error
  | first
  | prefer
deriving DecidableEq, Repr

/-- Aggregation config from the flow types file. PreferredUpstream is a Go
int and is compared against the running upstream index. -/
structure Aggregation where
  bestEffort : Bool
  strategy : AggregationStrategy
  conflictPolicy : ConflictPolicy
  preferredUpstream : Int
deriving DecidableEq, Repr

/-- Aggregated data value. The three constructors record which of the three
marshalling paths of the aggregator produced the bytes: a verbatim single
body, json.Marshal of the collected raw bodies, or json.Marshal of the
merged field map. A Go nil Data is `Option.none` at use sites; note that Go
json.Marshal renders the nil slice of `fromArray []` as the JSON literal
null and renders the empty map of `fromObj []` as the empty JSON object. -/
inductive AggData (V : Type) where
  | fromBody (b : BodyVal V)
  | fromArray (items : List (BodyVal V))
  | fromObj (fields : List (String × V))
deriving DecidableEq, Repr

/-- AggregatedResponse. The Go field Partial is embedded as partialFlag. -/
structure AggResp (V : Type) where
  data : Option (AggData V)
  errors : List ClientError
  partialFlag : Bool
deriving DecidableEq, Repr

/-- mapUpstreamError of the default aggregator. The errors.As guard of the
source always succeeds here because the embedding hands it the structured
UpstreamError directly; the switch is non-exhaustive in the source and every
unlisted kind falls to the default branch. -/
def mapUpstreamError (e : UError) : ClientError :=
  match e.kind with
  | .timeout => clientErrUpstreamUnavailable
  | .connection => clientErrUpstreamUnavailable
  | .badStatus => clientErrUpstreamError
  | .bodyTooLarge => clientErrUpstreamBodyTooLarge
  | _ => clientErrInternal

def getRespInternalError (V : Type) : AggResp V :=
  { data := none, errors := [clientErrInternal], partialFlag := false }

def getRespUpstreamMalformedError (V : Type) : AggResp V :=
  { data := none, errors := [clientErrUpstreamMalformed], partialFlag := false }

/-- dedupeErrors: drop repeated client errors, preserving first occurrence
order; the seen map of the source becomes an accumulator list. -/
def dedupeAux (seen : List ClientError) : List ClientError → List ClientError
  | [] => []
  | e :: rest =>
    if seen.contains e then dedupeAux seen rest
    else e :: dedupeAux (e :: seen) rest

def dedupeErrors (errs : List ClientError) : List ClientError :=
  dedupeAux [] errs

section Aggregator

variable {V : Type} [DecidableEq V]

/-- rawResponse: the single upstream shortcut. The empty list case is
unreachable from aggregate and is mapped onto the internal error result. -/
def rawResponse (responses : List (UResp V)) : AggResp V :=
  match responses with
  | [r] =>
    match r.err with
    | some e => { data := none, errors := [mapUpstreamError e], partialFlag := false }
    | none =>
      match r.body with
      | none => { data := none, errors := [], partialFlag := false }
      | some b => { data := some (.fromBody b), errors := [], partialFlag := false }
  | _ => getRespInternalError V

/-- field from the aggregator source: an upstream response value together
with the index of the upstream that owns it. -/
structure MField (V : Type) where
  value : V
  owner : Int
deriving DecidableEq, Repr

/-- Go map assignment merged[k] = f on the association list model: replace
the existing binding in place, or append a fresh one. -/
def mapSet : List (String × MField V) → String → MField V → List (String × MField V)
  | [], k, f => [(k, f)]
  | (k0, f0) :: rest, k, f =>
    if k0 = k then (k, f) :: rest else (k0, f0) :: mapSet rest k f

/-- One step of the key loop of merged: the body of `for k, v := range obj`
for a single key. A none result signals the immediate VALUE_CONFLICT return
of the error conflict policy. -/
def mergeObjStep (agg : Aggregation) (idx : Nat) (m : List (String × MField V))
    (kv : String × V) : Option (List (String × MField V)) :=
  match List.lookup kv.1 m with
  | none => some (mapSet m kv.1 { value := kv.2, owner := (idx : Int) })
  | some current =>
    match agg.conflictPolicy with
    | .overwrite => some (mapSet m kv.1 { value := kv.2, owner := (idx : Int) })
    | .first => some m
    | .error => none
    | .prefer =>
      if current.owner = agg.preferredUpstream then some m
      else if (idx : Int) = agg.preferredUpstream then
        some (mapSet m kv.1 { value := kv.2, owner := (idx : Int) })
      else some m

/-- The key loop of merged over one parsed object. -/
def mergeObjFold (agg : Aggregation) (idx : Nat) (m : List (String × MField V)) :
    List (String × V) → Option (List (String × MField V))
  | [] => some m
  | kv :: rest =>
    match mergeObjStep agg idx m kv with
    | none => none
    | some m2 => mergeObjFold agg idx m2 rest

/-- The response loop of merged, carrying the upstream index, the merged
field map, the accumulated client errors and the successful response
count. -/
def mergedGo (agg : Aggregation) :
    Nat → List (UResp V) → List (String × MField V) → List ClientError → Nat → AggResp V
  | _, [], m, errs, succ =>
    { data := some (.fromObj (m.map fun kf => (kf.1, kf.2.value)))
      errors := dedupeErrors errs
      partialFlag := !errs.isEmpty && succ != 0 }
  | idx, r :: rest, m, errs, succ =>
    match r.err with
    | some e =>
      if agg.bestEffort then
        mergedGo agg (idx + 1) rest m (errs ++ [mapUpstreamError e]) succ
      else
        { data := none, errors := [mapUpstreamError e], partialFlag := false }
    | none =>
      match r.body with
      | none => mergedGo agg (idx + 1) rest m errs (succ + 1)
      | some (.raw _ _) =>
        if agg.bestEffort then
          mergedGo agg (idx + 1) rest m (errs ++ [clientErrUpstreamMalformed]) (succ + 1)
        else
          getRespUpstreamMalformedError V
      | some (.obj fs) =>
        match mergeObjFold agg idx m fs with
        | none => { data := none, errors := [clientErrValueConflict], partialFlag := false }
        | some m2 => mergedGo agg (idx + 1) rest m2 errs (succ + 1)

/-- merged of the default aggregator. -/
def merged (responses : List (UResp V)) (agg : Aggregation) : AggResp V :=
  mergedGo agg 0 responses [] [] 0

/-- The response loop of arrayed, carrying the collected raw bodies, the
accumulated client errors and the successful response count. The final
json.Marshal of the collected slice validates every RawMessage element and
returns the upstream-malformed response when one is not valid JSON (the
nil slice of no collected bodies marshals to the null literal and cannot
fail). -/
def arrayedGo (agg : Aggregation) :
    List (UResp V) → List (BodyVal V) → List ClientError → Nat → AggResp V
  | [], arr, errs, succ =>
    if arr.any fun b => !(bodyValidJson b) then
      getRespUpstreamMalformedError V
    else
      { data := some (.fromArray arr)
        errors := dedupeErrors errs
        partialFlag := !errs.isEmpty && succ != 0 }
  | r :: rest, arr, errs, succ =>
    match r.err with
    | some e =>
      if agg.bestEffort then
        arrayedGo agg rest arr (errs ++ [mapUpstreamError e]) succ
      else
        { data := none, errors := [mapUpstreamError e], partialFlag := false }
    | none =>
      match r.body with
      | none => arrayedGo agg rest arr errs (succ + 1)
      | some b => arrayedGo agg rest (arr ++ [b]) errs (succ + 1)

/-- arrayed of the default aggregator. -/
def arrayed (responses : List (UResp V)) (agg : Aggregation) : AggResp V :=
  arrayedGo agg responses [] [] 0

/-- namespaced: the reserved strategy. -/
def namespaced (V : Type) : AggResp V :=
  { data := none, errors := ["not implemented"], partialFlag := false }

/-- aggregate of the default aggregator: single responses take the raw
shortcut before the strategy switch. -/
def aggregate (responses : List (UResp V)) (agg : Aggregation) : AggResp V :=
  if responses.length = 1 then rawResponse responses
  else
    match agg.strategy with
    | .merge => merged responses agg
    | .array => arrayed responses agg
    | .nspace => namespaced V

/-- A response that contributes a client error under the merge strategy: a
non-nil upstream error, or a non-nil body that does not parse as a JSON
object. -/
def mergeErrContributor (r : UResp V) : Bool :=
  r.err.isSome ||
    (match r.body with
     | some (.raw _ _) => true
     | _ => false)

/-- A response that contributes a client error under the array strategy: a
non-nil upstream error. -/
def arrErrContributor (r : UResp V) : Bool :=
  r.err.isSome

/-- A response whose body enters the collected array slice but fails the
JSON validation of the final json.Marshal: no upstream error and a non-nil
body that is not valid JSON. -/
def arrInvalidContributor (r : UResp V) : Bool :=
  r.err.isNone &&
    (match r.body with
     | some b => !(bodyValidJson b)
     | none => false)

/-- A successful response in the sense of the successfulResponseCount
counter of the aggregator: a nil upstream error. -/
def succResp (r : UResp V) : Bool :=
  r.err.isNone

end Aggregator

/-! Circuit breaker (internal/circuitbreaker). Time is embedded as an
integer clock: time.Since(lastFailureAt) becomes now - lastFailureAt, and
time.Now() becomes the now argument of the mutating operations. Every
operation below is the body the source runs under the breaker mutex. -/

/-- The three breaker states. -/
inductive CBState where
  | Closed
  | Open
  | HalfOpen
deriving DecidableEq, Repr

/-- CircuitBreaker state and configuration. -/
structure CircuitBreaker where
  state : CBState
  failures : Int
  lastFailureAt : Int
  threshold : Int
  resetTimeout : Int
  halfOpenTrial : Bool
deriving DecidableEq, Repr

/-- circuitbreaker.New. The zero time value of Go is embedded as 0. -/
def CircuitBreaker.new (threshold resetTimeout : Int) : CircuitBreaker :=
  { state := .Closed, failures := 0, lastFailureAt := 0
    threshold := threshold, resetTimeout := resetTimeout, halfOpenTrial := false }

/-- Allow: returns the admission decision together with the updated breaker.
The Closed case is the default branch of the source switch. -/
def CircuitBreaker.allow (b : CircuitBreaker) (now : Int) : Bool × CircuitBreaker :=
  match b.state with
  | .Open =>
    if now - b.lastFailureAt ≥ b.resetTimeout then
      (true, { b with state := .HalfOpen, halfOpenTrial := false })
    else
      (false, b)
  | .HalfOpen =>
    if !b.halfOpenTrial then
      (true, { b with halfOpenTrial := true })
    else
      (false, b)
  | .Closed => (true, b)

/-- OnFailure: records the failure time, then transitions per state; the
Open case falls through the switch and only refreshes the timestamp. -/
def CircuitBreaker.onFailure (b : CircuitBreaker) (now : Int) : CircuitBreaker :=
  let b := { b with lastFailureAt := now }
  match b.state with
  | .HalfOpen => { b with state := .Open, failures := b.threshold }
  | .Closed =>
    let b := { b with failures := b.failures + 1 }
    if b.failures ≥ b.threshold then { b with state := .Open } else b
  | .Open => b

/-- OnSuccess: resets the failure count in Closed, closes from HalfOpen, and
falls through the switch in Open. -/
def CircuitBreaker.onSuccess (b : CircuitBreaker) : CircuitBreaker :=
  match b.state with
  | .HalfOpen => { b with state := .Closed, failures := 0 }
  | .Closed => { b with failures := 0 }
  | .Open => b

/-! Upstream caller (upstream.go): isBreakerFailure, the breaker feeding
block, the transport error classification of one call attempt, and the
retry loop of Call. -/

/-- isBreakerFailure from upstream.go: false when the error or its wrapped
cause is nil or the cause matches context.Canceled or
context.DeadlineExceeded; otherwise true exactly for the kinds timeout,
connection and badStatus. -/
def isBreakerFailure (uerr : Option UError) : Bool :=
  match uerr with
  | none => false
  | some e =>
    match e.cause with
    | none => false
    | some f =>
      if f.isCanceled || f.isDeadline then false
      else
        match e.kind with
        | .timeout => true
        | .connection => true
        | .badStatus => true
        | _ => false

/-- The breaker feeding block that runs after each attempt of Call:
OnFailure when the response error is non-nil and a breaker failure,
OnSuccess otherwise. -/
def breakerFeed (b : CircuitBreaker) (now : Int) (e : Option UError) : CircuitBreaker :=
  if e.isSome && isBreakerFailure e then b.onFailure now else b.onSuccess

/-- Transport error classification of the inner call: connection by
default, timeout when the error matches context.DeadlineExceeded, canceled
when it matches context.Canceled (the canceled check runs last). -/
def classifyTransport (f : GoErr) : UKind :=
  if f.isCanceled then .canceled
  else if f.isDeadline then .timeout
  else .connection

/-- The upstream response produced by the inner call when the HTTP client
returns a transport error. -/
def transportErrorResp (V : Type) (f : GoErr) : UResp V :=
  { status := 0, headers := [], body := none
    err := some { kind := classifyTransport f, cause := some f } }

section Upstream

variable {V : Type}

end Upstream

/-! Router flow matching. Only the Path and Method fields of a flow
participate in match; the upstreams, aggregation, plugins and middlewares
of the source struct do not affect the selection and are omitted from the
embedded record. -/

/-- The match-relevant slice of a Flow. -/
structure Flow where
  path : String
  method : String
deriving DecidableEq, Repr

/-- strings.EqualFold, embedded as ASCII case folding over the character
data of the two strings: the gateway compares HTTP method names, which are
ASCII. -/
def strEqualFold (a b : String) : Bool :=
  a.data.map Char.toLower == b.data.map Char.toLower

/-- match of the Router: walk the flows in declaration order; skip a flow
whose non-empty method differs case-insensitively from the request method;
return the first remaining flow whose non-empty path equals the request
path exactly. -/
def matchFlows : List Flow → String → String → Option Flow
  | [], _, _ => none
  | f :: rest, m, p =>
    if f.method ≠ "" && !(strEqualFold f.method m) then matchFlows rest m p
    else if f.path ≠ "" && p == f.path then some f
    else matchFlows rest m p

/-- The per-flow matching predicate implicit in the loop of match: the
method is empty or equal up to case folding, and the path is non-empty and
equal exactly. -/
def flowMatches (f : Flow) (m p : String) : Bool :=
  (f.method == "" || strEqualFold f.method m) && (f.path ≠ "" && p == f.path)

/-! Forwarded header resolution (resolveHeaders of httpUpstream). The
model keeps the computation of the four X-Forwarded values; the preceding
forward-header loop cannot influence them because the source installs them
with Header.Set, which replaces any previously added values. IPv4
addresses are embedded as 32-bit naturals; net.SplitHostPort and
net.ParseIP on RemoteAddr are embedded as the pre-parsed optional remote
field, and net.SplitHostPort on the Host header as the optional hostPort
field (none models a parse failure in both cases). -/

/-- A trusted proxy CIDR: a 32-bit base address and a mask width. -/
structure Cidr where
  base : Nat
  bits : Nat
deriving DecidableEq, Repr

/-- Membership of an IPv4 address in a CIDR block. -/
def cidrContains (c : Cidr) (ip : Nat) : Bool :=
  ip / 2 ^ (32 - c.bits) == c.base / 2 ^ (32 - c.bits)

/-- isTrustedProxy of httpUpstream. -/
def isTrustedProxy (trusted : List Cidr) (ip : Nat) : Bool :=
  trusted.any fun c => cidrContains c ip

/-- Dotted quad rendering of an IPv4 address, the String method of
net.IP. -/
def ipToString (ip : Nat) : String :=
  toString (ip / 2 ^ 24 % 256) ++ "." ++ toString (ip / 2 ^ 16 % 256) ++ "." ++
    toString (ip / 2 ^ 8 % 256) ++ "." ++ toString (ip % 256)

/-- The inputs of resolveHeaders read from the original request: the Get
views of the four inbound X-Forwarded headers (the empty string models an
absent header), the Host field, TLS presence, the parsed RemoteAddr and the
port component of the Host field. -/
structure OrigReq where
  xff : String
  xfProto : String
  xfHost : String
  xfPort : String
  host : String
  tls : Bool
  remote : Option (Nat × String)
  hostPort : Option String
deriving DecidableEq, Repr

/-- resolvePort of httpUpstream: the port split from the Host field, with
443 or 80 as the TLS-dependent fallback when the split fails. -/
def resolvePort (o : OrigReq) : String :=
  match o.hostPort with
  | some p => p
  | none => if o.tls then "443" else "80"

/-- The four outgoing X-Forwarded header values. -/
structure ForwardedOut where
  xff : String
  xfProto : String
  xfHost : String
  xfPort : String
deriving DecidableEq, Repr

/-- The X-Forwarded computation of resolveHeaders: fail when RemoteAddr
does not parse; synthesize all four values locally for an untrusted peer;
for a trusted peer append the peer to a non-empty inbound chain, pass the
inbound proto through only when it is literally http or https, and pass the
inbound host and port through when present. -/
def resolveForwardedHeaders (trusted : List Cidr) (o : OrigReq) :
    Except String ForwardedOut :=
  match o.remote with
  | none => .error "cannot split or parse remote addr"
  | some (ip, _) =>
    let port := resolvePort o
    let proto := if o.tls then "https" else "http"
    let clientIP := ipToString ip
    if !(isTrustedProxy trusted ip) then
      .ok { xff := clientIP, xfProto := proto, xfHost := o.host, xfPort := port }
    else
      .ok
        { xff := if o.xff ≠ "" then o.xff ++ ", " ++ clientIP else clientIP
          xfProto := if o.xfProto == "http" || o.xfProto == "https" then o.xfProto else proto
          xfHost := if o.xfHost ≠ "" then o.xfHost else o.host
          xfPort := if o.xfPort ≠ "" then o.xfPort else port }

section StatusPolicy

variable {V : Type} [DecidableEq V]

/-- Zero-length test on a response body as len(resp.Body) == 0 sees it: a
Go nil body and the empty byte string both have length zero, and a parsed
JSON object always came from at least two bytes. -/
def bodyLenIsZero : Option (BodyVal V) → Bool
  | none => true
  | some (.raw s _) => s.isEmpty
  | some (.obj _) => false

/-- Modelled from the spec: the post-exchange status and body policy of the
upstream caller (mapStatusCodes and requireBody). The repository applies
these checks after a successful HTTP exchange and the dispatcher tests
assert the behavior, but the implementing function body is not present
under src/. Per the spec, a mapped status replaces the recorded status
before any downstream check, and an empty body under requireBody yields a
badStatus upstream error with the cause text asserted by the tests. -/
def applyStatusBodyPolicy (mapCodes : List (Int × Int)) (requireBody : Bool)
    (r : UResp V) : UResp V :=
  let mappedStatus :=
    match List.lookup r.status mapCodes with
    | some v => v
    | none => r.status
  let r1 : UResp V := { r with status := mappedStatus }
  if requireBody && bodyLenIsZero r1.body then
    { r1 with
      err := some { kind := .badStatus
                    cause := some { isCanceled := false, isDeadline := false
                                    msg := "empty body not allowed by upstream policy" } } }
  else r1

end StatusPolicy

/-! Helper lemmas about the aggregator. -/

section AggregatorLemmas

variable {V : Type} [DecidableEq V] (agg : Aggregation)

/-- Deduplication returns the empty list only on the empty list. -/
theorem dedupeErrors_eq_nil (l : List ClientError) : dedupeErrors l = [] ↔ l = [] := by
  cases l with
  | nil => simp [dedupeErrors, dedupeAux]
  | cons e rest => simp [dedupeErrors, dedupeAux]

/-- With any conflict policy other than error, the key loop over a parsed
object cannot abort. -/
theorem mergeObjFold_isSome (hpol : agg.conflictPolicy ≠ .error) :
    ∀ (fs : List (String × V)) (idx : Nat) (m : List (String × MField V)),
      ∃ m2, mergeObjFold agg idx m fs = some m2 := by
  intro fs
  induction fs with
  | nil => intro idx m; exact ⟨m, rfl⟩
  | cons kv rest ih =>
    intro idx m
    have hstep : ∃ m1, mergeObjStep agg idx m kv = some m1 := by
      simp only [mergeObjStep]
      cases List.lookup kv.1 m with
      | none => exact ⟨_, rfl⟩
      | some cur =>
        cases hcp : agg.conflictPolicy with
        | error => exact absurd hcp hpol
        | overwrite => exact ⟨_, rfl⟩
        | first => exact ⟨_, rfl⟩
        | prefer =>
          dsimp only
          split_ifs <;> exact ⟨_, rfl⟩
    obtain ⟨m1, h1⟩ := hstep
    obtain ⟨m2, h2⟩ := ih idx m1
    exact ⟨m2, by simp only [mergeObjFold, h1, h2]⟩

/-- Partial flag of the merge loop under best effort and a non-aborting
conflict policy: errors seen or pending, and a success seen or pending. -/
theorem mergedGo_partial_char (hbe : agg.bestEffort = true)
    (hpol : agg.conflictPolicy ≠ .error) :
    ∀ (rs : List (UResp V)) (idx : Nat) (m : List (String × MField V))
      (errs : List ClientError) (succ : Nat),
      (mergedGo agg idx rs m errs succ).partialFlag =
        ((!errs.isEmpty || rs.any mergeErrContributor) &&
          ((succ != 0) || rs.any succResp)) := by
  intro rs
  induction rs with
  | nil => intro idx m errs succ; simp [mergedGo]
  | cons r rest ih =>
    intro idx m errs succ
    cases herr : r.err with
    | some e =>
      have hunf : mergedGo agg idx (r :: rest) m errs succ =
          mergedGo agg (idx + 1) rest m (errs ++ [mapUpstreamError e]) succ := by
        simp [mergedGo, herr, hbe]
      rw [hunf, ih]
      simp [mergeErrContributor, succResp, herr]
    | none =>
      cases hbody : r.body with
      | none =>
        have hunf : mergedGo agg idx (r :: rest) m errs succ =
            mergedGo agg (idx + 1) rest m errs (succ + 1) := by
          simp [mergedGo, herr, hbody]
        rw [hunf, ih]
        simp [mergeErrContributor, succResp, herr, hbody]
      | some b =>
        cases b with
        | raw s v =>
          have hunf : mergedGo agg idx (r :: rest) m errs succ =
              mergedGo agg (idx + 1) rest m (errs ++ [clientErrUpstreamMalformed]) (succ + 1) := by
            simp [mergedGo, herr, hbody, hbe]
          rw [hunf, ih]
          simp [mergeErrContributor, succResp, herr, hbody]
        | obj fs =>
          obtain ⟨m2, h2⟩ := mergeObjFold_isSome agg hpol fs idx m
          have hunf : mergedGo agg idx (r :: rest) m errs succ =
              mergedGo agg (idx + 1) rest m2 errs (succ + 1) := by
            simp [mergedGo, herr, hbody, h2]
          rw [hunf, ih]
          simp [mergeErrContributor, succResp, herr, hbody]

/-- Partial flag of the merge loop without best effort: always false when
no errors are pending. -/
theorem mergedGo_partial_strict (hbe : agg.bestEffort = false) :
    ∀ (rs : List (UResp V)) (idx : Nat) (m : List (String × MField V)) (succ : Nat),
      (mergedGo agg idx rs m [] succ).partialFlag = false := by
  intro rs
  induction rs with
  | nil => intro idx m succ; simp [mergedGo]
  | cons r rest ih =>
    intro idx m succ
    cases herr : r.err with
    | some e => simp [mergedGo, herr, hbe]
    | none =>
      cases hbody : r.body with
      | none =>
        simp only [mergedGo, herr, hbody]
        exact ih (idx + 1) m (succ + 1)
      | some b =>
        cases b with
        | raw s v => simp [mergedGo, herr, hbody, hbe, getRespUpstreamMalformedError]
        | obj fs =>
          cases hfold : mergeObjFold agg idx m fs with
          | none => simp [mergedGo, herr, hbody, hfold]
          | some m2 =>
            simp only [mergedGo, herr, hbody, hfold]
            exact ih (idx + 1) m2 (succ + 1)

/-- Data of the merge loop without best effort: any produced error forces a
nil data early return. -/
theorem mergedGo_data_strict (hbe : agg.bestEffort = false) :
    ∀ (rs : List (UResp V)) (idx : Nat) (m : List (String × MField V)) (succ : Nat),
      (mergedGo agg idx rs m [] succ).errors ≠ [] →
      (mergedGo agg idx rs m [] succ).data = none := by
  intro rs
  induction rs with
  | nil =>
    intro idx m succ h
    simp [mergedGo, dedupeErrors, dedupeAux] at h
  | cons r rest ih =>
    intro idx m succ h
    cases herr : r.err with
    | some e => simp [mergedGo, herr, hbe]
    | none =>
      cases hbody : r.body with
      | none =>
        simp only [mergedGo, herr, hbody] at h ⊢
        exact ih (idx + 1) m (succ + 1) h
      | some b =>
        cases b with
        | raw s v => simp [mergedGo, herr, hbody, hbe, getRespUpstreamMalformedError]
        | obj fs =>
          cases hfold : mergeObjFold agg idx m fs with
          | none => simp [mergedGo, herr, hbody, hfold]
          | some m2 =>
            simp only [mergedGo, herr, hbody, hfold] at h ⊢
            exact ih (idx + 1) m2 (succ + 1) h

/-- Data of the merge loop under best effort when every response carries an
upstream error: the pending map is marshalled unchanged. -/
theorem mergedGo_data_all_err (hbe : agg.bestEffort = true) :
    ∀ (rs : List (UResp V)), (∀ r ∈ rs, r.err.isSome = true) →
      ∀ (idx : Nat) (m : List (String × MField V)) (errs : List ClientError) (succ : Nat),
      (mergedGo agg idx rs m errs succ).data =
        some (.fromObj (m.map fun kf => (kf.1, kf.2.value))) := by
  intro rs
  induction rs with
  | nil => intro _ idx m errs succ; simp [mergedGo]
  | cons r rest ih =>
    intro hall idx m errs succ
    have hr : r.err.isSome = true := hall r (List.mem_cons_self r rest)
    cases herr : r.err with
    | none => rw [herr] at hr; simp at hr
    | some e =>
      simp only [mergedGo, herr, hbe, if_true]
      exact ih (fun x hx => hall x (List.mem_cons_of_mem r hx)) (idx + 1) m _ succ

/-- Case analysis of the merge loop under best effort: either a conflict
abort with nil data, or the final return with its partial flag and error
emptiness characterized. -/
theorem mergedGo_cases (hbe : agg.bestEffort = true) :
    ∀ (rs : List (UResp V)) (idx : Nat) (m : List (String × MField V))
      (errs : List ClientError) (succ : Nat),
      (mergedGo agg idx rs m errs succ).data = none
      ∨ ((mergedGo agg idx rs m errs succ).partialFlag =
            ((!errs.isEmpty || rs.any mergeErrContributor) && ((succ != 0) || rs.any succResp))
         ∧ ((mergedGo agg idx rs m errs succ).errors = [] ↔
              (errs = [] ∧ rs.all fun r => !mergeErrContributor r))) := by
  intro rs
  induction rs with
  | nil =>
    intro idx m errs succ
    right
    constructor
    · simp [mergedGo]
    · simp [mergedGo, dedupeErrors_eq_nil]
  | cons r rest ih =>
    intro idx m errs succ
    cases herr : r.err with
    | some e =>
      have hunf : mergedGo agg idx (r :: rest) m errs succ =
          mergedGo agg (idx + 1) rest m (errs ++ [mapUpstreamError e]) succ := by
        simp [mergedGo, herr, hbe]
      rw [hunf]
      rcases ih (idx + 1) m (errs ++ [mapUpstreamError e]) succ with h | ⟨hp, he⟩
      · exact Or.inl h
      · right
        constructor
        · rw [hp]
          simp [mergeErrContributor, succResp, herr]
        · rw [he]
          simp [mergeErrContributor, herr]
    | none =>
      cases hbody : r.body with
      | none =>
        have hunf : mergedGo agg idx (r :: rest) m errs succ =
            mergedGo agg (idx + 1) rest m errs (succ + 1) := by
          simp [mergedGo, herr, hbody]
        rw [hunf]
        rcases ih (idx + 1) m errs (succ + 1) with h | ⟨hp, he⟩
        · exact Or.inl h
        · right
          constructor
          · rw [hp]
            simp [mergeErrContributor, succResp, herr, hbody]
          · rw [he]
            simp [mergeErrContributor, herr, hbody]
      | some b =>
        cases b with
        | raw s v =>
          have hunf : mergedGo agg idx (r :: rest) m errs succ =
              mergedGo agg (idx + 1) rest m (errs ++ [clientErrUpstreamMalformed]) (succ + 1) := by
            simp [mergedGo, herr, hbody, hbe]
          rw [hunf]
          rcases ih (idx + 1) m (errs ++ [clientErrUpstreamMalformed]) (succ + 1) with h | ⟨hp, he⟩
          · exact Or.inl h
          · right
            constructor
            · rw [hp]
              simp [mergeErrContributor, succResp, herr, hbody]
            · rw [he]
              simp [mergeErrContributor, herr, hbody]
        | obj fs =>
          cases hfold : mergeObjFold agg idx m fs with
          | none =>
            have hunf : mergedGo agg idx (r :: rest) m errs succ =
                { data := none, errors := [clientErrValueConflict], partialFlag := false } := by
              simp [mergedGo, herr, hbody, hfold]
            exact Or.inl (by rw [hunf])
          | some m2 =>
            have hunf : mergedGo agg idx (r :: rest) m errs succ =
                mergedGo agg (idx + 1) rest m2 errs (succ + 1) := by
              simp [mergedGo, herr, hbody, hfold]
            rw [hunf]
            rcases ih (idx + 1) m2 errs (succ + 1) with h | ⟨hp, he⟩
            · exact Or.inl h
            · right
              constructor
              · rw [hp]
                simp [mergeErrContributor, succResp, herr, hbody]
              · rw [he]
                simp [mergeErrContributor, herr, hbody]

/-- Appending one element never leaves a list empty. -/
theorem isEmpty_append_singleton (l : List ClientError) (x : ClientError) :
    (l ++ [x]).isEmpty = false := by
  cases l <;> rfl

/-- Partial flag of the array loop under best effort: the final marshal
must validate every collected body, errors must be seen or pending, and a
success must be seen or pending. -/
theorem arrayedGo_partial_char (hbe : agg.bestEffort = true) :
    ∀ (rs : List (UResp V)) (arr : List (BodyVal V)) (errs : List ClientError) (succ : Nat),
      (arrayedGo agg rs arr errs succ).partialFlag =
        ((!(arr.any fun b => !(bodyValidJson b)) && !(rs.any arrInvalidContributor)) &&
          ((!errs.isEmpty || rs.any arrErrContributor) && ((succ != 0) || rs.any succResp))) := by
  intro rs
  induction rs with
  | nil =>
    intro arr errs succ
    by_cases harr : (arr.any fun b => !(bodyValidJson b)) = true
    · simp [arrayedGo, harr, getRespUpstreamMalformedError]
    · rw [Bool.not_eq_true] at harr
      simp [arrayedGo, harr, getRespUpstreamMalformedError]
  | cons r rest ih =>
    intro arr errs succ
    cases herr : r.err with
    | some e =>
      have hunf : arrayedGo agg (r :: rest) arr errs succ =
          arrayedGo agg rest arr (errs ++ [mapUpstreamError e]) succ := by
        simp [arrayedGo, herr, hbe]
      rw [hunf, ih]
      simp [arrErrContributor, arrInvalidContributor, succResp, herr, isEmpty_append_singleton]
    | none =>
      cases hbody : r.body with
      | none =>
        have hunf : arrayedGo agg (r :: rest) arr errs succ =
            arrayedGo agg rest arr errs (succ + 1) := by
          simp [arrayedGo, herr, hbody]
        rw [hunf, ih]
        simp [arrErrContributor, arrInvalidContributor, succResp, herr, hbody]
      | some b =>
        have hunf : arrayedGo agg (r :: rest) arr errs succ =
            arrayedGo agg rest (arr ++ [b]) errs (succ + 1) := by
          simp [arrayedGo, herr, hbody]
        rw [hunf, ih]
        cases hv : bodyValidJson b <;>
          simp [arrErrContributor, arrInvalidContributor, succResp, herr, hbody, hv,
            Bool.and_assoc, Bool.and_left_comm]

/-- Error emptiness of the array loop under best effort: no marshal
failure from a collected or pending body, no pending error, and no
response contributing an error. -/
theorem arrayedGo_errors_char (hbe : agg.bestEffort = true) :
    ∀ (rs : List (UResp V)) (arr : List (BodyVal V)) (errs : List ClientError) (succ : Nat),
      ((arrayedGo agg rs arr errs succ).errors = [] ↔
        ((arr.any fun b => !(bodyValidJson b)) = false ∧ rs.any arrInvalidContributor = false
          ∧ errs = [] ∧ rs.all fun r => !arrErrContributor r)) := by
  intro rs
  induction rs with
  | nil =>
    intro arr errs succ
    by_cases harr : (arr.any fun b => !(bodyValidJson b)) = true
    · simp [arrayedGo, harr, getRespUpstreamMalformedError]
    · rw [Bool.not_eq_true] at harr
      simp [arrayedGo, harr, getRespUpstreamMalformedError, dedupeErrors_eq_nil]
  | cons r rest ih =>
    intro arr errs succ
    cases herr : r.err with
    | some e =>
      have hunf : arrayedGo agg (r :: rest) arr errs succ =
          arrayedGo agg rest arr (errs ++ [mapUpstreamError e]) succ := by
        simp [arrayedGo, herr, hbe]
      rw [hunf, ih]
      simp [arrErrContributor, arrInvalidContributor, herr]
    | none =>
      cases hbody : r.body with
      | none =>
        have hunf : arrayedGo agg (r :: rest) arr errs succ =
            arrayedGo agg rest arr errs (succ + 1) := by
          simp [arrayedGo, herr, hbody]
        rw [hunf, ih]
        simp [arrErrContributor, arrInvalidContributor, herr, hbody]
      | some b =>
        have hunf : arrayedGo agg (r :: rest) arr errs succ =
            arrayedGo agg rest (arr ++ [b]) errs (succ + 1) := by
          simp [arrayedGo, herr, hbody]
        rw [hunf, ih]
        cases hv : bodyValidJson b <;>
          simp [arrErrContributor, arrInvalidContributor, herr, hbody, hv]

/-- Partial flag of the array loop without best effort. -/
theorem arrayedGo_partial_strict (hbe : agg.bestEffort = false) :
    ∀ (rs : List (UResp V)) (arr : List (BodyVal V)) (succ : Nat),
      (arrayedGo agg rs arr [] succ).partialFlag = false := by
  intro rs
  induction rs with
  | nil =>
    intro arr succ
    simp only [arrayedGo]
    split <;> simp [getRespUpstreamMalformedError]
  | cons r rest ih =>
    intro arr succ
    cases herr : r.err with
    | some e => simp [arrayedGo, herr, hbe]
    | none =>
      cases hbody : r.body with
      | none =>
        simp only [arrayedGo, herr, hbody]
        exact ih arr (succ + 1)
      | some b =>
        simp only [arrayedGo, herr, hbody]
        exact ih (arr ++ [b]) (succ + 1)

/-- Data of the array loop without best effort: any produced error, from
an upstream or from the final marshal, comes with nil data. -/
theorem arrayedGo_data_strict (hbe : agg.bestEffort = false) :
    ∀ (rs : List (UResp V)) (arr : List (BodyVal V)) (succ : Nat),
      (arrayedGo agg rs arr [] succ).errors ≠ [] →
      (arrayedGo agg rs arr [] succ).data = none := by
  intro rs
  induction rs with
  | nil =>
    intro arr succ h
    by_cases harr : (arr.any fun b => !(bodyValidJson b)) = true
    · simp [arrayedGo, harr, getRespUpstreamMalformedError]
    · rw [Bool.not_eq_true] at harr
      simp [arrayedGo, harr, dedupeErrors, dedupeAux] at h
  | cons r rest ih =>
    intro arr succ h
    cases herr : r.err with
    | some e => simp [arrayedGo, herr, hbe]
    | none =>
      cases hbody : r.body with
      | none =>
        simp only [arrayedGo, herr, hbody] at h ⊢
        exact ih arr (succ + 1) h
      | some b =>
        simp only [arrayedGo, herr, hbody] at h ⊢
        exact ih (arr ++ [b]) (succ + 1) h

/-- Data of the array loop when some collected or pending body fails the
JSON validation of the final marshal: nil, through the early error return
or the upstream-malformed return. -/
theorem arrayedGo_data_invalid :
    ∀ (rs : List (UResp V)) (arr : List (BodyVal V)) (errs : List ClientError) (succ : Nat),
      ((arr.any fun b => !(bodyValidJson b)) || rs.any arrInvalidContributor) = true →
      (arrayedGo agg rs arr errs succ).data = none := by
  intro rs
  induction rs with
  | nil =>
    intro arr errs succ h
    simp only [List.any_nil, Bool.or_false] at h
    simp [arrayedGo, h, getRespUpstreamMalformedError]
  | cons r rest ih =>
    intro arr errs succ h
    cases herr : r.err with
    | some e =>
      by_cases hbe2 : agg.bestEffort = true
      · have hunf : arrayedGo agg (r :: rest) arr errs succ =
            arrayedGo agg rest arr (errs ++ [mapUpstreamError e]) succ := by
          simp [arrayedGo, herr, hbe2]
        rw [hunf]
        apply ih
        have hr : arrInvalidContributor r = false := by
          simp [arrInvalidContributor, herr]
        simpa [hr] using h
      · rw [Bool.not_eq_true] at hbe2
        simp [arrayedGo, herr, hbe2]
    | none =>
      cases hbody : r.body with
      | none =>
        have hunf : arrayedGo agg (r :: rest) arr errs succ =
            arrayedGo agg rest arr errs (succ + 1) := by
          simp [arrayedGo, herr, hbody]
        rw [hunf]
        apply ih
        have hr : arrInvalidContributor r = false := by
          simp [arrInvalidContributor, herr, hbody]
        simpa [hr] using h
      | some b =>
        have hunf : arrayedGo agg (r :: rest) arr errs succ =
            arrayedGo agg rest (arr ++ [b]) errs (succ + 1) := by
          simp [arrayedGo, herr, hbody]
        rw [hunf]
        apply ih
        have hr : arrInvalidContributor r = !(bodyValidJson b) := by
          simp [arrInvalidContributor, herr, hbody]
        simp only [List.any_cons, List.any_append, List.any_nil, hr, Bool.or_eq_true,
          Bool.or_false] at h ⊢
        tauto

/-- Data of the array loop when every response carries an upstream error
and the pending bodies are all valid: the pending array is marshalled
unchanged. -/
theorem arrayedGo_data_all_err (hbe : agg.bestEffort = true) :
    ∀ (rs : List (UResp V)), (∀ r ∈ rs, r.err.isSome = true) →
      ∀ (arr : List (BodyVal V)) (errs : List ClientError) (succ : Nat),
      (arr.any fun b => !(bodyValidJson b)) = false →
      (arrayedGo agg rs arr errs succ).data = some (.fromArray arr) := by
  intro rs
  induction rs with
  | nil => intro _ arr errs succ harr; simp [arrayedGo, harr]
  | cons r rest ih =>
    intro hall arr errs succ harr
    have hr : r.err.isSome = true := hall r (List.mem_cons_self r rest)
    cases herr : r.err with
    | none => rw [herr] at hr; simp at hr
    | some e =>
      simp only [arrayedGo, herr, hbe, if_true]
      exact ih (fun x hx => hall x (List.mem_cons_of_mem r hx)) arr _ succ harr

end AggregatorLemmas

/-! Helper lemmas about the retry loop. -/

section RetryLemmas

variable {V : Type}

end RetryLemmas

/-! Claim theorems. -/

/-- C3 counterexample: merging two failed upstreams under best effort
returns the empty JSON object as data with a non-empty error list and
partial false, violating the claimed nil-data invariant. -/
theorem claim_C3_counterexample :
    (merged
        [({ status := 0
            err := some { kind := .timeout
                          cause := some { isCanceled := false, isDeadline := true
                                          msg := "timeout" } } } : UResp Nat),
         { status := 0
           err := some { kind := .timeout
                         cause := some { isCanceled := false, isDeadline := true
                                         msg := "timeout" } } }]
        { bestEffort := true, strategy := .merge, conflictPolicy := .overwrite
          preferredUpstream := 0 }).errors ≠ []
    ∧ (merged
        [({ status := 0
            err := some { kind := .timeout
                          cause := some { isCanceled := false, isDeadline := true
                                          msg := "timeout" } } } : UResp Nat),
         { status := 0
           err := some { kind := .timeout
                         cause := some { isCanceled := false, isDeadline := true
                                         msg := "timeout" } } }]
        { bestEffort := true, strategy := .merge, conflictPolicy := .overwrite
          preferredUpstream := 0 }).partialFlag = false
    ∧ (merged
        [({ status := 0
            err := some { kind := .timeout
                          cause := some { isCanceled := false, isDeadline := true
                                          msg := "timeout" } } } : UResp Nat),
         { status := 0
           err := some { kind := .timeout
                         cause := some { isCanceled := false, isDeadline := true
                                         msg := "timeout" } } }]
        { bestEffort := true, strategy := .merge, conflictPolicy := .overwrite
          preferredUpstream := 0 }).data ≠ none := by
  decide

/-- C3 (amended): for merge under a non-aborting conflict policy, partial
is true exactly when best effort holds, some response contributed an error
and some response succeeded; for array the same holds provided additionally
that no collected body fails the JSON validation of the final marshal (an
invalid or empty raw body makes arrayed return UPSTREAM_MALFORMED with nil
data and partial false); and whenever errors are non-empty with partial
false, data is nil except on the best effort run in which no upstream
succeeded, where merge yields the empty JSON object and array yields the
JSON null of the nil slice. -/
theorem claim_C3 {V : Type} [DecidableEq V] (rs : List (UResp V)) (agg : Aggregation) :
    (agg.conflictPolicy ≠ .error →
      ((merged rs agg).partialFlag = true ↔
        agg.bestEffort = true ∧ (∃ r ∈ rs, mergeErrContributor r = true)
          ∧ ∃ r ∈ rs, succResp r = true))
    ∧ ((arrayed rs agg).partialFlag = true ↔
        agg.bestEffort = true ∧ (∃ r ∈ rs, arrErrContributor r = true)
          ∧ (∃ r ∈ rs, succResp r = true)
          ∧ ∀ r ∈ rs, arrInvalidContributor r = false)
    ∧ ((merged rs agg).errors ≠ [] → (merged rs agg).partialFlag = false →
        (merged rs agg).data = none
        ∨ (agg.bestEffort = true ∧ (merged rs agg).data = some (.fromObj [])))
    ∧ ((arrayed rs agg).errors ≠ [] → (arrayed rs agg).partialFlag = false →
        (arrayed rs agg).data = none
        ∨ (agg.bestEffort = true ∧ (arrayed rs agg).data = some (.fromArray []))) := by
  refine ⟨?_, ?_, ?_, ?_⟩
  · intro hpol
    cases hbe : agg.bestEffort with
    | true =>
      rw [merged, mergedGo_partial_char agg hbe hpol]
      simp [hbe, List.any_eq_true]
    | false =>
      rw [merged, mergedGo_partial_strict agg hbe]
      simp [hbe]
  · cases hbe : agg.bestEffort with
    | true =>
      rw [arrayed, arrayedGo_partial_char agg hbe]
      simp [hbe, List.any_eq_true, List.any_eq_false, and_assoc, and_comm, and_left_comm]
    | false =>
      rw [arrayed, arrayedGo_partial_strict agg hbe]
      simp [hbe]
  · intro herrs hpar
    cases hbe : agg.bestEffort with
    | false => exact Or.inl (mergedGo_data_strict agg hbe rs 0 [] 0 herrs)
    | true =>
      by_cases hs : ∃ r ∈ rs, succResp r = true
      · rcases mergedGo_cases agg hbe rs 0 [] [] 0 with h | ⟨hp, he⟩
        · exact Or.inl h
        · exfalso
          have hc : rs.any mergeErrContributor = true := by
            by_contra hnc
            apply herrs
            rw [merged, he]
            refine ⟨rfl, ?_⟩
            rw [List.all_eq_true]
            intro r hr
            rw [Bool.not_eq_true] at hnc
            rw [List.any_eq_false] at hnc
            simp [hnc r hr]
          have hsa : rs.any succResp = true := by
            rw [List.any_eq_true]
            obtain ⟨r, hr, hsr⟩ := hs
            exact ⟨r, hr, hsr⟩
          rw [merged, hp, hc, hsa] at hpar
          simp at hpar
      · right
        refine ⟨rfl, ?_⟩
        have hall : ∀ r ∈ rs, r.err.isSome = true := by
          intro r hr
          by_contra hcon
          apply hs
          refine ⟨r, hr, ?_⟩
          rw [Bool.not_eq_true] at hcon
          cases hx : r.err with
          | some e => rw [hx] at hcon; simp at hcon
          | none => simp [succResp, hx]
        have := mergedGo_data_all_err agg hbe rs hall 0 [] [] 0
        simpa [merged] using this
  · intro herrs hpar
    cases hbe : agg.bestEffort with
    | false => exact Or.inl (arrayedGo_data_strict agg hbe rs [] 0 herrs)
    | true =>
      by_cases hinv : rs.any arrInvalidContributor = true
      · exact Or.inl (arrayedGo_data_invalid agg rs [] [] 0 (by simp [hinv]))
      · rw [Bool.not_eq_true] at hinv
        by_cases hs : ∃ r ∈ rs, succResp r = true
        · exfalso
          have hc : rs.any arrErrContributor = true := by
            by_contra hnc
            apply herrs
            rw [arrayed, arrayedGo_errors_char agg hbe]
            refine ⟨by simp, hinv, rfl, ?_⟩
            rw [List.all_eq_true]
            intro r hr
            rw [Bool.not_eq_true] at hnc
            rw [List.any_eq_false] at hnc
            simp [hnc r hr]
          have hsa : rs.any succResp = true := by
            rw [List.any_eq_true]
            obtain ⟨r, hr, hsr⟩ := hs
            exact ⟨r, hr, hsr⟩
          rw [arrayed, arrayedGo_partial_char agg hbe, hc, hsa, hinv] at hpar
          simp at hpar
        · right
          refine ⟨rfl, ?_⟩
          have hall : ∀ r ∈ rs, r.err.isSome = true := by
            intro r hr
            by_contra hcon
            apply hs
            refine ⟨r, hr, ?_⟩
            rw [Bool.not_eq_true] at hcon
            cases hx : r.err with
            | some e => rw [hx] at hcon; simp at hcon
            | none => simp [succResp, hx]
          exact arrayedGo_data_all_err agg hbe rs hall [] [] 0 (by simp)

/-- C3 witness: the amended characterization evaluated on one failed and
one succeeding upstream under best effort merge. -/
theorem claim_C3_witness :
    (merged
        [({ status := 0
            err := some { kind := .timeout
                          cause := some { isCanceled := false, isDeadline := true
                                          msg := "timeout" } } } : UResp Nat),
         { status := 200, body := some (.obj [("k", 1)]) }]
        { bestEffort := true, strategy := .merge, conflictPolicy := .overwrite
          preferredUpstream := 0 }).partialFlag = true :=
  ((claim_C3
      [({ status := 0
          err := some { kind := .timeout
                        cause := some { isCanceled := false, isDeadline := true
                                        msg := "timeout" } } } : UResp Nat),
       { status := 200, body := some (.obj [("k", 1)]) }]
      { bestEffort := true, strategy := .merge, conflictPolicy := .overwrite
        preferredUpstream := 0 }).1 (by decide)).mpr (by decide)

/-- C4 counterexample: the aggregator maps the circuitOpen kind to INTERNAL,
not to UPSTREAM_UNAVAILABLE as claimed. -/
theorem claim_C4_counterexample :
    mapUpstreamError { kind := .circuitOpen, cause := none } ≠ clientErrUpstreamUnavailable := by
  decide

/-- C4 (amended): the aggregator maps timeout and connection to
UPSTREAM_UNAVAILABLE, badStatus to UPSTREAM_ERROR, bodyTooLarge to
UPSTREAM_BODY_TOO_LARGE, and every other kind, including circuitOpen, to
INTERNAL. -/
theorem claim_C4 (e : UError) :
    ((e.kind = .timeout ∨ e.kind = .connection) →
        mapUpstreamError e = clientErrUpstreamUnavailable)
    ∧ (e.kind = .badStatus → mapUpstreamError e = clientErrUpstreamError)
    ∧ (e.kind = .bodyTooLarge → mapUpstreamError e = clientErrUpstreamBodyTooLarge)
    ∧ ((e.kind = .canceled ∨ e.kind = .readError ∨ e.kind = .circuitOpen ∨ e.kind = .internal) →
        mapUpstreamError e = clientErrInternal) := by
  obtain ⟨k, c⟩ := e
  cases k <;> simp [mapUpstreamError]

/-- C4 witness: the amended mapping evaluated on the circuitOpen kind. -/
theorem claim_C4_witness :
    mapUpstreamError { kind := .circuitOpen, cause := none } = clientErrInternal :=
  (claim_C4 { kind := .circuitOpen, cause := none }).2.2.2 (Or.inr (Or.inr (Or.inl rfl)))

/-- C5: evaluation at the failing input. An attempt whose HTTP round trip
fails with a deadline expiry produces the upstream error kind timeout, yet
isBreakerFailure rejects it because the wrapped cause matches
context.DeadlineExceeded, so the breaker feed after the attempt calls
OnSuccess and resets the failure count instead of advancing toward Open;
the timeout arm of the kind switch inside isBreakerFailure is unreachable. -/
theorem claim_C5 :
    (transportErrorResp Nat
        { isCanceled := false, isDeadline := true, msg := "context deadline exceeded" }).err =
      some { kind := .timeout
             cause := some { isCanceled := false, isDeadline := true
                             msg := "context deadline exceeded" } }
    ∧ isBreakerFailure
        (some { kind := .timeout
                cause := some { isCanceled := false, isDeadline := true
                                msg := "context deadline exceeded" } }) = false
    ∧ breakerFeed
        { state := .Closed, failures := 2, lastFailureAt := 0, threshold := 3
          resetTimeout := 100, halfOpenTrial := false } 7
        (some { kind := .timeout
                cause := some { isCanceled := false, isDeadline := true
                                msg := "context deadline exceeded" } }) =
      { state := .Closed, failures := 0, lastFailureAt := 0, threshold := 3
        resetTimeout := 100, halfOpenTrial := false } := by
  refine ⟨rfl, rfl, rfl⟩

/-- C6: the circuit breaker three-state machine, stated per state for every
breaker value and clock instant. -/
theorem claim_C6 (b : CircuitBreaker) (now : Int) :
    (b.state = .Closed →
        b.allow now = (true, b)
        ∧ (b.onFailure now).failures = b.failures + 1
        ∧ (b.onFailure now).state =
            (if b.failures + 1 ≥ b.threshold then CBState.Open else CBState.Closed)
        ∧ b.onSuccess.failures = 0 ∧ b.onSuccess.state = .Closed)
    ∧ (b.state = .Open →
        (now - b.lastFailureAt ≥ b.resetTimeout →
          b.allow now = (true, { b with state := .HalfOpen, halfOpenTrial := false }))
        ∧ (now - b.lastFailureAt < b.resetTimeout → b.allow now = (false, b)))
    ∧ (b.state = .HalfOpen →
        (b.halfOpenTrial = false → b.allow now = (true, { b with halfOpenTrial := true }))
        ∧ (b.halfOpenTrial = true → b.allow now = (false, b))
        ∧ (b.onFailure now).state = .Open
        ∧ (b.onFailure now).failures = b.threshold
        ∧ (b.onFailure now).lastFailureAt = now
        ∧ b.onSuccess.state = .Closed ∧ b.onSuccess.failures = 0) := by
  obtain ⟨st, fc, lf, th, rt, tr⟩ := b
  refine ⟨fun hs => ?_, fun hs => ⟨fun h => ?_, fun h => ?_⟩,
    fun hs => ⟨fun h => ?_, fun h => ?_, ?_, ?_, ?_, ?_, ?_⟩⟩ <;> subst hs
  · refine ⟨rfl, ?_, ?_, rfl, rfl⟩
    · simp only [CircuitBreaker.onFailure]
      split <;> rfl
    · by_cases hc : fc + 1 ≥ th <;> simp [CircuitBreaker.onFailure, hc]
  · simp only [CircuitBreaker.allow]
    rw [if_pos h]
  · simp only [CircuitBreaker.allow]
    rw [if_neg (not_le.mpr h)]
  · simp only at h
    simp [CircuitBreaker.allow, h]
  · simp only at h
    simp [CircuitBreaker.allow, h]
  · simp [CircuitBreaker.onFailure]
  · simp [CircuitBreaker.onFailure]
  · simp [CircuitBreaker.onFailure]
  · simp [CircuitBreaker.onSuccess]
  · simp [CircuitBreaker.onSuccess]

/-- C6 witness: the state machine evaluated on a concrete Open breaker at a
clock past the reset timeout. -/
theorem claim_C6_witness :
    CircuitBreaker.allow
        { state := .Open, failures := 3, lastFailureAt := 0, threshold := 3
          resetTimeout := 100, halfOpenTrial := true } 150 =
      (true,
        { state := .HalfOpen, failures := 3, lastFailureAt := 0, threshold := 3
          resetTimeout := 100, halfOpenTrial := false }) :=
  ((claim_C6
      { state := .Open, failures := 3, lastFailureAt := 0, threshold := 3
        resetTimeout := 100, halfOpenTrial := true } 150).2.1 rfl).1 (by decide)

/-- C9: a flow with exactly one upstream whose response has no error and a
non-nil body is aggregated to that body verbatim, with no errors and
partial false, for every status and aggregation config. -/
theorem claim_C9 {V : Type} [DecidableEq V] (r : UResp V) (b : BodyVal V)
    (agg : Aggregation) (herr : r.err = none) (hbody : r.body = some b) :
    aggregate [r] agg =
      { data := some (.fromBody b), errors := [], partialFlag := false } := by
  simp [aggregate, rawResponse, herr, hbody]

/-- C9 witness: the single-upstream shortcut evaluated on a concrete
non-JSON body and a 503 status. -/
theorem claim_C9_witness :
    aggregate [({ status := 503, body := some (.raw "B" false), err := none } : UResp Nat)]
        { bestEffort := false, strategy := .merge, conflictPolicy := .overwrite
          preferredUpstream := 0 } =
      { data := some (.fromBody (.raw "B" false)), errors := [], partialFlag := false } :=
  claim_C9 _ _ _ rfl rfl

/-- The matching predicate rewritten through the skip guard of the loop. -/
theorem flowMatches_through_guard (f : Flow) (m p : String) :
    flowMatches f m p =
      (!(decide (f.method ≠ "") && !(strEqualFold f.method m)) &&
        (decide (f.path ≠ "") && p == f.path)) := by
  simp only [flowMatches]
  cases hq : strEqualFold f.method m <;> by_cases hme : f.method = "" <;> simp [hme, hq]

/-- C10: flow matching returns the first flow, in declaration order,
satisfying the matching predicate; a flow with an empty method matches
requests of every method, and a flow with an empty path matches no
request. -/
theorem claim_C10 :
    (∀ flows m p, matchFlows flows m p = flows.find? fun f => flowMatches f m p)
    ∧ (∀ (f : Flow) (m m2 p : String), f.method = "" → flowMatches f m p = flowMatches f m2 p)
    ∧ (∀ (f : Flow) (m p : String), f.path = "" → flowMatches f m p = false) := by
  refine ⟨fun flows m p => ?_, fun f m m2 p h => by simp [flowMatches, h],
    fun f m p h => by simp [flowMatches, h]⟩
  induction flows with
  | nil => rfl
  | cons f rest ih =>
    simp only [matchFlows, List.find?]
    cases h1 : (decide (f.method ≠ "") && !(strEqualFold f.method m)) with
    | true =>
      have hfm : flowMatches f m p = false := by
        rw [flowMatches_through_guard, h1]
        rfl
      simp [hfm, ih]
    | false =>
      cases h2 : (decide (f.path ≠ "") && (p == f.path)) with
      | true =>
        have hfm : flowMatches f m p = true := by
          rw [flowMatches_through_guard, h1, h2]
          rfl
        simp only [Bool.false_eq_true, if_false, h2, if_true, hfm]
      | false =>
        have hfm : flowMatches f m p = false := by
          rw [flowMatches_through_guard, h1, h2]
          rfl
        simp [hfm, ih]

/-- C10 witness: matching evaluated on a wildcard-method flow, an
empty-path flow and a concrete request. -/
theorem claim_C10_witness :
    matchFlows
        [{ path := "", method := "GET" }, { path := "/a", method := "" }] "post" "/a" =
      some { path := "/a", method := "" }
    ∧ flowMatches { path := "/a", method := "" } "GET" "/a" =
        flowMatches { path := "/a", method := "" } "POST" "/a"
    ∧ flowMatches { path := "", method := "GET" } "GET" "/x" = false :=
  ⟨(claim_C10.1
      [{ path := "", method := "GET" }, { path := "/a", method := "" }] "post" "/a").trans
      (by decide),
   claim_C10.2.1 { path := "/a", method := "" } "GET" "POST" "/a" rfl,
   claim_C10.2.2 { path := "", method := "GET" } "GET" "/x" rfl⟩

/-- C2: after a successful exchange the recorded status is the mapped
status whenever mapStatusCodes has an entry, before any downstream check,
and an empty body under requireBody yields the badStatus upstream error
with the cause text of the policy. The checked code is modelled from the
spec because its implementing source is not under src. -/
theorem claim_C2 {V : Type} [DecidableEq V] (mapCodes : List (Int × Int)) (rb : Bool)
    (r : UResp V) :
    ((applyStatusBodyPolicy mapCodes rb r).status =
        match List.lookup r.status mapCodes with
        | some v => v
        | none => r.status)
    ∧ (rb = true → bodyLenIsZero r.body = true →
        (applyStatusBodyPolicy mapCodes rb r).err =
          some { kind := .badStatus
                 cause := some { isCanceled := false, isDeadline := false
                                 msg := "empty body not allowed by upstream policy" } }) := by
  constructor
  · simp only [applyStatusBodyPolicy]
    split <;> rfl
  · intro hrb hb
    simp [applyStatusBodyPolicy, hrb, hb]

/-- C2 witness: the policy evaluated on a 404 response with an empty body,
a 404 to 502 mapping and requireBody set. -/
theorem claim_C2_witness :
    (applyStatusBodyPolicy [((404 : Int), (502 : Int))] true
        ({ status := 404, body := some (.raw "" false) } : UResp Nat)).status = 502
    ∧ (applyStatusBodyPolicy [((404 : Int), (502 : Int))] true
        ({ status := 404, body := some (.raw "" false) } : UResp Nat)).err =
      some { kind := .badStatus
             cause := some { isCanceled := false, isDeadline := false
                             msg := "empty body not allowed by upstream policy" } } :=
  ⟨((claim_C2 [((404 : Int), (502 : Int))] true
      ({ status := 404, body := some (.raw "" false) } : UResp Nat)).1).trans (by decide),
   (claim_C2 [((404 : Int), (502 : Int))] true
      ({ status := 404, body := some (.raw "" false) } : UResp Nat)).2 rfl rfl⟩

/-- C7: on a duplicate key the conflict policy decides the kept value:
overwrite keeps the later upstream, first keeps the first, error returns
immediately with data null and the single client error VALUE_CONFLICT
regardless of any remaining responses, and prefer keeps the value owned by
the preferred upstream index, retaining the incumbent when neither side is
preferred. -/
theorem claim_C7 {V : Type} [DecidableEq V] (k : String) (v0 v1 : V) (be : Bool) :
    (merged [{ status := 200, body := some (.obj [(k, v0)]) },
             { status := 200, body := some (.obj [(k, v1)]) }]
        { bestEffort := be, strategy := .merge, conflictPolicy := .overwrite
          preferredUpstream := 0 } =
      { data := some (.fromObj [(k, v1)]), errors := [], partialFlag := false })
    ∧ (merged [{ status := 200, body := some (.obj [(k, v0)]) },
               { status := 200, body := some (.obj [(k, v1)]) }]
        { bestEffort := be, strategy := .merge, conflictPolicy := .first
          preferredUpstream := 0 } =
      { data := some (.fromObj [(k, v0)]), errors := [], partialFlag := false })
    ∧ (∀ rest : List (UResp V),
        merged ({ status := 200, body := some (.obj [(k, v0)]) } ::
                { status := 200, body := some (.obj [(k, v1)]) } :: rest)
          { bestEffort := be, strategy := .merge, conflictPolicy := .error
            preferredUpstream := 0 } =
        { data := none, errors := [clientErrValueConflict], partialFlag := false })
    ∧ (merged [{ status := 200, body := some (.obj [(k, v0)]) },
               { status := 200, body := some (.obj [(k, v1)]) }]
        { bestEffort := be, strategy := .merge, conflictPolicy := .prefer
          preferredUpstream := 0 } =
      { data := some (.fromObj [(k, v0)]), errors := [], partialFlag := false })
    ∧ (merged [{ status := 200, body := some (.obj [(k, v0)]) },
               { status := 200, body := some (.obj [(k, v1)]) }]
        { bestEffort := be, strategy := .merge, conflictPolicy := .prefer
          preferredUpstream := 1 } =
      { data := some (.fromObj [(k, v1)]), errors := [], partialFlag := false })
    ∧ (∀ pref : Int, pref ≠ 0 → pref ≠ 1 →
        merged [{ status := 200, body := some (.obj [(k, v0)]) },
                { status := 200, body := some (.obj [(k, v1)]) }]
          { bestEffort := be, strategy := .merge, conflictPolicy := .prefer
            preferredUpstream := pref } =
        { data := some (.fromObj [(k, v0)]), errors := [], partialFlag := false }) := by
  refine ⟨?_, ?_, fun rest => ?_, ?_, ?_, fun pref h0 h1 => ?_⟩ <;>
    simp only [merged, mergedGo, mergeObjFold, mergeObjStep, mapSet, dedupeErrors, dedupeAux,
      List.lookup, beq_self_eq_true, if_true, reduceCtorEq, if_pos]
  all_goals try simp
  all_goals rw [if_neg fun h => h0 h.symm, if_neg fun h => h1 h.symm]
  all_goals rfl

/-- C7 witness: the four conflict policies evaluated on two single-key
object responses with the concrete key k and values 1 and 2. -/
theorem claim_C7_witness :
    merged [({ status := 200, body := some (.obj [("k", 1)]) } : UResp Nat),
            { status := 200, body := some (.obj [("k", 2)]) }]
        { bestEffort := false, strategy := .merge, conflictPolicy := .prefer
          preferredUpstream := 5 } =
      { data := some (.fromObj [("k", 1)]), errors := [], partialFlag := false } :=
  (claim_C7 "k" 1 2 false).2.2.2.2.2 5 (by decide) (by decide)

/-- C8: for an untrusted immediate peer all four outgoing X-Forwarded
values are derived locally, so requests differing only in their inbound
X-Forwarded headers produce identical outgoing values; for a trusted peer
the peer is appended to a non-empty inbound chain, the inbound proto passes
through only when it is http or https, and the inbound host and port pass
through when present. -/
theorem claim_C8 (trusted : List Cidr) :
    (∀ (ip : Nat) (p : String) (o1 o2 : OrigReq),
        o1.remote = some (ip, p) → o2.remote = some (ip, p) →
        o1.host = o2.host → o1.tls = o2.tls → o1.hostPort = o2.hostPort →
        isTrustedProxy trusted ip = false →
        resolveForwardedHeaders trusted o1 = resolveForwardedHeaders trusted o2
        ∧ resolveForwardedHeaders trusted o1 =
            .ok { xff := ipToString ip
                  xfProto := if o1.tls then "https" else "http"
                  xfHost := o1.host
                  xfPort := resolvePort o1 })
    ∧ (∀ (ip : Nat) (p : String) (o : OrigReq),
        o.remote = some (ip, p) → isTrustedProxy trusted ip = true →
        resolveForwardedHeaders trusted o =
          .ok { xff := if o.xff ≠ "" then o.xff ++ ", " ++ ipToString ip else ipToString ip
                xfProto := if o.xfProto == "http" || o.xfProto == "https" then o.xfProto
                           else if o.tls then "https" else "http"
                xfHost := if o.xfHost ≠ "" then o.xfHost else o.host
                xfPort := if o.xfPort ≠ "" then o.xfPort else resolvePort o }) := by
  constructor
  · intro ip p o1 o2 h1 h2 hh ht hp htr
    have hport : resolvePort o1 = resolvePort o2 := by
      simp [resolvePort, hp, ht]
    refine ⟨?_, ?_⟩
    · simp [resolveForwardedHeaders, h1, h2, htr, hh, ht, hport]
    · simp [resolveForwardedHeaders, h1, htr]
  · intro ip p o h htr
    simp [resolveForwardedHeaders, h, htr]

/-- C8 witness: the header resolution evaluated for one untrusted peer with
two inbound X-Forwarded-For values and for one trusted peer. -/
theorem claim_C8_witness :
    resolveForwardedHeaders [{ base := 0x0A000000, bits := 8 }]
        { xff := "5.6.7.8", xfProto := "ftp", xfHost := "evil", xfPort := "99"
          host := "example.com", tls := true, remote := some (0x01020304, "1234")
          hostPort := none } =
      resolveForwardedHeaders [{ base := 0x0A000000, bits := 8 }]
        { xff := "", xfProto := "", xfHost := "", xfPort := ""
          host := "example.com", tls := true, remote := some (0x01020304, "1234")
          hostPort := none }
    ∧ resolveForwardedHeaders [{ base := 0x0A000000, bits := 8 }]
        { xff := "5.6.7.8", xfProto := "http", xfHost := "h", xfPort := "80"
          host := "example.com", tls := false, remote := some (0x0A000105, "9")
          hostPort := none } =
      .ok { xff := "5.6.7.8, 10.0.1.5", xfProto := "http", xfHost := "h", xfPort := "80" } := by
  constructor
  · exact ((claim_C8 [{ base := 0x0A000000, bits := 8 }]).1 0x01020304 "1234"
      { xff := "5.6.7.8", xfProto := "ftp", xfHost := "evil", xfPort := "99"
        host := "example.com", tls := true, remote := some (0x01020304, "1234")
        hostPort := none }
      { xff := "", xfProto := "", xfHost := "", xfPort := ""
        host := "example.com", tls := true, remote := some (0x01020304, "1234")
        hostPort := none } rfl rfl rfl rfl rfl (by decide)).1
  · exact ((claim_C8 [{ base := 0x0A000000, bits := 8 }]).2 0x0A000105 "9"
      { xff := "5.6.7.8", xfProto := "http", xfHost := "h", xfPort := "80"
        host := "example.com", tls := false, remote := some (0x0A000105, "9")
        hostPort := none } rfl (by decide)).trans (by rfl)

end Kono
